import Mathlib

/-!
Verification of the Niimbot printer protocol core of `printmas`
(`src/main/printer.cc`, `src/main/printer.h`).

The development shallowly embeds the frame codec (`BuildPacket`,
`ParsePacket`), the stream-reassembly loop (`ProcessReceivedData`), the
response interpreter (`HandleResponse`, `Reset`) and the print-job
sequencer (`Print`).  Bytes are modelled as `Nat` values (callers of the
C functions pass `uint8_t`, so theorems carry `< 256` hypotheses where
the byte view matters); the explicit `uint8_t` cast on the length byte
in `BuildPacket` is kept as `% 256`.
-/

set_option maxRecDepth 8192

namespace Printmas

/-- XOR fold of `type`, `len`, and all payload bytes, as computed by both
`NiimbotPrinter::BuildPacket` and `NiimbotPrinter::ParsePacket`
(`printer.cc:73-77`, `printer.cc:112-116`). -/
def xorChecksum (type len : Nat) (data : List Nat) : Nat :=
  data.foldl Nat.xor (Nat.xor type len)

/-- The raw frame bytes written by `NiimbotPrinter::BuildPacket`
(`printer.cc:67-81`) when the output buffer is large enough:
start markers `0x55 0x55`, the type byte, the payload length truncated to
a byte (`static_cast<uint8_t>(data_len)`), the payload, the XOR checksum,
and end markers `0xAA 0xAA`. -/
def buildPacketBytes (type : Nat) (data : List Nat) : List Nat :=
  [85, 85, type, data.length % 256] ++ data ++
    [xorChecksum type (data.length % 256) data, 170, 170]

/-- `NiimbotPrinter::BuildPacket` (`printer.cc:60-84`): returns `none`
(the C function returns length `0`) when the output buffer cannot hold
`data_len + 7` bytes, otherwise the frame bytes. -/
def BuildPacket (bufSize : Nat) (type : Nat) (data : List Nat) :
    Option (List Nat) :=
  if bufSize < data.length + 7 then none
  else some (buildPacketBytes type data)

/-- The distinct failure exits of `NiimbotPrinter::ParsePacket`
(`printer.cc:86-126`), named as in the spec's `ProtocolError` taxonomy:
too few bytes for the declared payload (`incomplete`), bad start markers
(`badStart`), bad end markers (`badEnd`), checksum mismatch
(`checksumMismatch`). -/
inductive ParseError where
  | incomplete
  | badStart
  | badEnd
  | checksumMismatch
deriving DecidableEq, Repr

/-- `NiimbotPrinter::ParsePacket` (`printer.cc:86-126`) with each
`return false` exit mapped to its failure kind, in source order:
fewer than 7 bytes; start-marker check; declared length vs available
bytes; end-marker check; checksum check. -/
def parsePacketE (buf : List Nat) : Except ParseError (Nat × List Nat) :=
  if buf.length < 7 then .error .incomplete
  else if buf.getD 0 0 ≠ 85 ∨ buf.getD 1 0 ≠ 85 then .error .badStart
  else
    let type := buf.getD 2 0
    let len := buf.getD 3 0
    if buf.length < len + 7 then .error .incomplete
    else if buf.getD (5 + len) 0 ≠ 170 ∨ buf.getD (6 + len) 0 ≠ 170 then
      .error .badEnd
    else
      let data := (buf.drop 4).take len
      if xorChecksum type len data ≠ buf.getD (4 + len) 0 then
        .error .checksumMismatch
      else .ok (type, data)

/-- The boolean view of `ParsePacket` actually used by the reassembly
loop: `some (type, data)` on success, `none` on any failure. -/
def ParsePacket (buf : List Nat) : Option (Nat × List Nat) :=
  (parsePacketE buf).toOption

-- Basic list-index helpers used to evaluate `parsePacketE` on frames.

theorem getD_append_left {l l' : List Nat} {n : Nat} (d : Nat)
    (h : n < l.length) : (l ++ l').getD n d = l.getD n d := by
  induction l generalizing n with
  | nil => simp at h
  | cons a t ih =>
    cases n with
    | zero => rfl
    | succ m =>
      simp only [List.cons_append, List.getD_cons_succ]
      exact ih (Nat.lt_of_succ_lt_succ h)

theorem getD_append_right (l l' : List Nat) (k d : Nat) :
    (l ++ l').getD (l.length + k) d = l'.getD k d := by
  induction l with
  | nil => simp
  | cons a t ih =>
    rw [List.cons_append, List.length_cons, Nat.succ_add, List.getD_cons_succ]
    exact ih

theorem take_append_length (l l' : List Nat) :
    (l ++ l').take l.length = l := by
  induction l with
  | nil => rfl
  | cons a t ih => simp [ih]

theorem drop_append_length (l l' : List Nat) (k : Nat) :
    (l ++ l').drop (l.length + k) = l'.drop k := by
  induction l with
  | nil => simp
  | cons a t ih => simp [Nat.succ_add, ih]

/-- Parsing a frame laid out as
`0x55 :: 0x55 :: t :: p.length :: (p ++ ([c,0xAA,0xAA] ++ rest))`
succeeds exactly when the stored checksum byte `c` matches the XOR fold,
and then returns the type and payload. -/
theorem parsePacketE_frame (t : Nat) (p : List Nat) (c : Nat)
    (rest : List Nat) :
    parsePacketE (85 :: 85 :: t :: p.length ::
        (p ++ ([c, 170, 170] ++ rest))) =
      if xorChecksum t p.length p ≠ c then .error .checksumMismatch
      else .ok (t, p) := by
  set F : List Nat := 85 :: 85 :: t :: p.length :: (p ++ ([c, 170, 170] ++ rest))
    with hF
  have hlen : F.length = p.length + 7 + rest.length := by
    simp [hF, List.length_append]; omega
  have hget4 : ∀ k d, F.getD (4 + k) d = (p ++ ([c, 170, 170] ++ rest)).getD k d := by
    intro k d
    rw [show 4 + k = (((k + 1) + 1) + 1) + 1 from by omega]
    simp [hF, List.getD_cons_succ]
  have hc : F.getD (4 + p.length) 0 = c := by
    rw [hget4]
    rw [show p.length = p.length + 0 from rfl, getD_append_right]
    rfl
  have he1 : F.getD (5 + p.length) 0 = 170 := by
    rw [show 5 + p.length = 4 + (p.length + 1) from by omega, hget4,
      getD_append_right]
    rfl
  have he2 : F.getD (6 + p.length) 0 = 170 := by
    rw [show 6 + p.length = 4 + (p.length + 2) from by omega, hget4,
      getD_append_right]
    rfl
  have hdata : (F.drop 4).take p.length = p := by
    have hd : F.drop 4 = p ++ ([c, 170, 170] ++ rest) := rfl
    rw [hd]
    exact take_append_length _ _
  have h0 : F.getD 0 0 = 85 := rfl
  have h1 : F.getD 1 0 = 85 := rfl
  have h2 : F.getD 2 0 = t := rfl
  have h3 : F.getD 3 0 = p.length := rfl
  rw [parsePacketE]
  simp only [hlen, h0, h1, h2, h3, hc, he1, he2, hdata]
  rw [if_neg (by omega : ¬ (p.length + 7 + rest.length < 7))]
  rw [if_neg (by simp : ¬ ((85 : Nat) ≠ 85 ∨ (85 : Nat) ≠ 85))]
  rw [if_neg (by omega : ¬ (p.length + 7 + rest.length < p.length + 7))]
  rw [if_neg (by simp : ¬ ((170 : Nat) ≠ 170 ∨ (170 : Nat) ≠ 170))]

/-- Round trip on the raw frame bytes: parsing a built frame recovers the
type and payload (payload length up to 248, so the length byte is exact). -/
theorem parsePacket_buildPacketBytes (t : Nat) (p : List Nat)
    (hp : p.length ≤ 248) :
    ParsePacket (buildPacketBytes t p) = some (t, p) := by
  have hmod : p.length % 256 = p.length := Nat.mod_eq_of_lt (by omega)
  have hb : buildPacketBytes t p
      = 85 :: 85 :: t :: p.length ::
          (p ++ ([xorChecksum t p.length p, 170, 170] ++ [])) := by
    simp [buildPacketBytes, hmod]
  rw [ParsePacket, hb, parsePacketE_frame]
  rw [if_neg (by simp)]
  rfl

/-! ## Printer state, response interpreter, reset

`NiimbotPrinter` fields relevant to the claims (`printer.h:128-137`):
the receive accumulator `packet_buf_` (capacity 512), the heartbeat
`status_`, and the `ready_` flag.  `ready_fires` is a ghost counter of
how many times the ready callback has been invoked
(`ready_callback_()` at `printer.cc:209`). -/

/-- `NiimbotPrinter::Status` (`printer.h:59-64`). -/
structure Status where
  closing_state : Nat := 0
  power_level : Nat := 0
  paper_state : Nat := 0
  rfid_read_state : Nat := 0
deriving DecidableEq, Repr

/-- The observable printer state: receive accumulator, heartbeat status,
ready flag, plus a ghost count of ready-callback invocations. -/
structure PrinterState where
  packet_buf : List Nat := []
  status : Status := {}
  ready : Bool := false
  ready_fires : Nat := 0
deriving DecidableEq, Repr

/-- The state of a freshly constructed `NiimbotPrinter`
(`printer.h:134-137` member initializers). -/
def initialState : PrinterState := {}

/-- `NiimbotPrinter::Reset` (`printer.cc:46-51`): clears the ready flag,
the receive accumulator and the status. -/
def resetPrinter (s : PrinterState) : PrinterState :=
  { s with ready := false, packet_buf := [], status := {} }

/-- `NiimbotPrinter::HandleResponse` (`printer.cc:164-278`) restricted to
its state effects: every branch except the heartbeat branch only logs.
A heartbeat response (type `0xDD = 221`) with payload length at least 9
decodes status fields by exact payload length (`printer.cc:176-200`) and
then, if the ready flag is still false, sets it and fires the ready
callback (`printer.cc:205-211`, counted by the ghost `ready_fires`). -/
def handleResponse (s : PrinterState) (type : Nat) (data : List Nat) :
    PrinterState :=
  if type = 219 then s
  else if type = 221 ∧ 9 ≤ data.length then
    let st := s.status
    let st' : Status :=
      if data.length = 20 then
        { st with paper_state := data.getD 18 0,
                  rfid_read_state := data.getD 19 0 }
      else if data.length = 13 then
        { closing_state := data.getD 9 0, power_level := data.getD 10 0,
          paper_state := data.getD 11 0, rfid_read_state := data.getD 12 0 }
      else if data.length = 19 then
        { closing_state := data.getD 15 0, power_level := data.getD 16 0,
          paper_state := data.getD 17 0, rfid_read_state := data.getD 18 0 }
      else if data.length = 10 then
        { st with closing_state := data.getD 8 0,
                  power_level := data.getD 9 0 }
      else if data.length = 9 then
        { st with closing_state := data.getD 8 0 }
      else st
    let s1 := { s with status := st' }
    if s1.ready then s1
    else { s1 with ready := true, ready_fires := s1.ready_fires + 1 }
  else s

/-- One externally visible event acting on the printer state: a handled
frame (a `HandleResponse` call from the parse loop) or a `Reset` call
(made by the BLE layer on disconnect). -/
inductive Event where
  | frame (type : Nat) (data : List Nat)
  | reset
deriving DecidableEq, Repr

/-- Step the printer state by one event. -/
def stepEvent (s : PrinterState) : Event → PrinterState
  | .frame t d => handleResponse s t d
  | .reset => resetPrinter s

/-! ## Stream reassembly (`ProcessReceivedData`) -/

/-- The start-marker scan of `NiimbotPrinter::ProcessReceivedData`
(`printer.cc:297-304`): index of the first adjacent `0x55 0x55` pair,
stopping at `length - 1` when there is none (the last byte is kept as a
potential first marker byte). -/
def findStart : List Nat → Nat
  | a :: b :: r => if a = 85 ∧ b = 85 then 0 else findStart (b :: r) + 1
  | _ => 0

/-- The parse loop of `NiimbotPrinter::ProcessReceivedData`
(`printer.cc:291-337`), fuelled by the byte count (each iteration either
returns or consumes at least one buffered byte, so fuel equal to the
buffer length makes the fuelled loop agree with the C `while` loop).
Returns the final state together with the list of handled frames. -/
def parseLoop : Nat → PrinterState → PrinterState × List (Nat × List Nat)
  | 0, s => (s, [])
  | fuel + 1, s =>
    if s.packet_buf.length < 7 then (s, [])
    else
      let sg := { s with packet_buf := s.packet_buf.drop (findStart s.packet_buf) }
      if sg.packet_buf.length < 7 then (sg, [])
      else
        match ParsePacket sg.packet_buf with
        | some (t, d) =>
          let sh := handleResponse sg t d
          let sr := { sh with packet_buf := sh.packet_buf.drop (d.length + 7) }
          let (s2, fs) := parseLoop fuel sr
          (s2, (t, d) :: fs)
        | none =>
          if 4 ≤ sg.packet_buf.length then
            if sg.packet_buf.length < sg.packet_buf.getD 3 0 + 7 then (sg, [])
            else parseLoop fuel { sg with packet_buf := sg.packet_buf.drop 1 }
          else (sg, [])

/-- `NiimbotPrinter::ProcessReceivedData` (`printer.cc:280-338`): if
appending would exceed the 512-byte accumulator, the accumulator is
cleared first; then the delivered bytes are appended and the parse loop
runs.  Returns the final state and the handled frames. -/
def ProcessReceivedData (s : PrinterState) (data : List Nat) :
    PrinterState × List (Nat × List Nat) :=
  let buf0 := if 512 < s.packet_buf.length + data.length then [] else s.packet_buf
  let s1 := { s with packet_buf := buf0 ++ data }
  parseLoop s1.packet_buf.length s1

/-! ## Print sequencer (`Print`)

`NiimbotPrinter::Print` (`printer.cc:453-516`) issues a fixed sequence
of commands, each through `SendPacket` guarded by `ESP_RETURN_ON_ERROR`.
The command payloads below are the `data` arrays built by the helper
member functions (`printer.cc:356-445`); the environment (BLE send
callback and write-completion semaphore) is abstracted as an oracle
giving each `SendPacket` call's `esp_err_t` result. -/

/-- `ESP_OK`. -/
def espOk : Nat := 0

/-- `ESP_ERR_INVALID_STATE` (`0x103`). -/
def espErrInvalidState : Nat := 259

/-- Niimbot B1 paper width in dots (`printer.h:20`). -/
def kPaperWidthDots : Nat := 384

/-- Niimbot B1 paper height in dots (`printer.h:21`). -/
def kPaperHeightDots : Nat := 240

/-- A command as passed to `SendPacket`: request code and payload. -/
abbrev Cmd := Nat × List Nat

/-- `SetLabelDensity(density)` request (`printer.cc:356-361`): code
`0x21`, one density byte. -/
def setLabelDensityCmd (density : Nat) : Cmd := (0x21, [density])

/-- `SetLabelType(type)` request (`printer.cc:363-368`): code `0x23`,
one type byte. -/
def setLabelTypeCmd (type : Nat) : Cmd := (0x23, [type])

/-- `StartPrint(total_pages, page_color)` request (`printer.cc:370-379`):
code `0x01`, big-endian page count, four reserved zeros, color byte. -/
def startPrintCmd (totalPages pageColor : Nat) : Cmd :=
  (0x01, [totalPages / 256 % 256, totalPages % 256, 0, 0, 0, 0, pageColor])

/-- `StartPagePrint()` request (`printer.cc:381-386`): code `0x03`,
payload `[1]`. -/
def startPagePrintCmd : Cmd := (0x03, [1])

/-- `SetPageSize(rows, cols, copies)` request (`printer.cc:388-400`):
code `0x13`, three big-endian 16-bit values. -/
def setPageSizeCmd (rows cols copies : Nat) : Cmd :=
  (0x13, [rows / 256 % 256, rows % 256, cols / 256 % 256, cols % 256,
          copies / 256 % 256, copies % 256])

/-- `SendBitmapRow(row_num, row_data, row_len)` request
(`printer.cc:402-422`): code `0x85`, big-endian row number, three zero
bit-count bytes, repeat count 1, then the row bytes. -/
def sendBitmapRowCmd (rowNum : Nat) (rowData : List Nat) : Cmd :=
  (0x85, [rowNum / 256 % 256, rowNum % 256, 0, 0, 0, 1] ++ rowData)

/-- `EndPagePrint()` request (`printer.cc:433-438`): code `0xE3`,
payload `[1]`. -/
def endPagePrintCmd : Cmd := (0xE3, [1])

/-- `EndPrint()` request (`printer.cc:440-445`): code `0xF3`,
payload `[1]`. -/
def endPrintCmd : Cmd := (0xF3, [1])

/-- The full command sequence of `Print` (`printer.cc:470-512`) for an
image of height `h`, with `rowBits y` the 48-byte row produced by the
external row decoder (`Signs::decode_rle_row_1bpp`): set density 3, set
label type 1, start print (1 page, color 0), start page, set page size
(`min h 240` rows by 384 columns, 1 copy), one bitmap row per row index,
end page, end print. -/
def printCmdSeq (h : Nat) (rowBits : Nat → List Nat) : List Cmd :=
  let printHeight := min h kPaperHeightDots
  [setLabelDensityCmd 3, setLabelTypeCmd 1, startPrintCmd 1 0,
   startPagePrintCmd, setPageSizeCmd printHeight kPaperWidthDots 1] ++
  (List.range printHeight).map (fun y => sendBitmapRowCmd y (rowBits y)) ++
  [endPagePrintCmd, endPrintCmd]

/-- Issue commands in order, stopping at the first `SendPacket` failure
(`ESP_RETURN_ON_ERROR` at each step of `Print`).  `oracle i` is the
`esp_err_t` result of the `i`-th `SendPacket` call; the returned list
holds the commands actually attempted (including a failing one). -/
def runCmds (oracle : Nat → Nat) : Nat → List Cmd → Nat × List Cmd
  | _, [] => (espOk, [])
  | i, c :: cs =>
    if oracle i = espOk then
      let (r, rest) := runCmds oracle (i + 1) cs
      (r, c :: rest)
    else (oracle i, [c])

/-- `NiimbotPrinter::Print` (`printer.cc:453-516`): fails immediately
with `ESP_ERR_INVALID_STATE` when the ready flag is clear
(`printer.cc:455-458`), otherwise issues `printCmdSeq` in order,
aborting at the first failing step.  `Print` never writes any printer
field, so the state is returned unchanged. -/
def PrintRun (s : PrinterState) (h : Nat) (rowBits : Nat → List Nat)
    (oracle : Nat → Nat) : Nat × List Cmd × PrinterState :=
  if s.ready = false then (espErrInvalidState, [], s)
  else
    let (r, cs) := runCmds oracle 0 (printCmdSeq h rowBits)
    (r, cs, s)

/-! ## Helper lemmas for the command runner -/

theorem runCmds_all_ok (oracle : Nat → Nat) (cs : List Cmd) (i : Nat)
    (h : ∀ j, j < cs.length → oracle (i + j) = espOk) :
    runCmds oracle i cs = (espOk, cs) := by
  induction cs generalizing i with
  | nil => rfl
  | cons c rest ih =>
    have h0 : oracle i = espOk := by
      have := h 0 (by simp)
      simpa using this
    rw [runCmds, if_pos h0, ih (i + 1) (fun j hj => by
      have := h (j + 1) (by simpa using Nat.succ_lt_succ hj)
      simpa [Nat.add_assoc, Nat.add_comm 1 j] using this)]

theorem runCmds_first_fail (oracle : Nat → Nat) (cs : List Cmd) (i k : Nat)
    (hk : oracle (i + k) ≠ espOk) (hok : ∀ j, j < k → oracle (i + j) = espOk)
    (hlen : k < cs.length) :
    runCmds oracle i cs = (oracle (i + k), cs.take (k + 1)) := by
  induction cs generalizing i k with
  | nil => simp at hlen
  | cons c rest ih =>
    cases k with
    | zero =>
      rw [runCmds, if_neg (by simpa using hk)]
      simp
    | succ m =>
      have h0 : oracle i = espOk := by
        have := hok 0 (Nat.succ_pos m)
        simpa using this
      rw [runCmds, if_pos h0,
        ih (i + 1) m (by simpa [Nat.add_assoc, Nat.add_comm, Nat.add_left_comm] using hk)
          (fun j hj => by
            have := hok (j + 1) (Nat.succ_lt_succ hj)
            simpa [Nat.add_assoc, Nat.add_comm 1 j] using this)
          (by simpa using Nat.lt_of_succ_lt_succ hlen)]
      have : i + 1 + m = i + (m + 1) := by omega
      simp [this]

/-! ## Unfolding lemmas for the parse loop -/

theorem parseLoop_stop (fuel : Nat) (s : PrinterState)
    (h : s.packet_buf.length < 7) : parseLoop fuel s = (s, []) := by
  cases fuel with
  | zero => rfl
  | succ f =>
    simp only [parseLoop]
    rw [if_pos h]

theorem parseLoop_step_incomplete (fuel : Nat) (s : PrinterState)
    (h7 : ¬ s.packet_buf.length < 7)
    (hg7 : ¬ (s.packet_buf.drop (findStart s.packet_buf)).length < 7)
    (hparse : ParsePacket (s.packet_buf.drop (findStart s.packet_buf)) = none)
    (hwait : (s.packet_buf.drop (findStart s.packet_buf)).length <
      (s.packet_buf.drop (findStart s.packet_buf)).getD 3 0 + 7) :
    parseLoop (fuel + 1) s
      = ({ s with packet_buf := s.packet_buf.drop (findStart s.packet_buf) },
          []) := by
  simp only [parseLoop]
  rw [if_neg h7]
  rw [if_neg hg7, hparse]
  rw [if_pos (by omega : 4 ≤ (s.packet_buf.drop (findStart s.packet_buf)).length)]
  rw [if_pos hwait]

theorem parseLoop_step_drop1 (fuel : Nat) (s : PrinterState)
    (h7 : ¬ s.packet_buf.length < 7)
    (hg7 : ¬ (s.packet_buf.drop (findStart s.packet_buf)).length < 7)
    (hparse : ParsePacket (s.packet_buf.drop (findStart s.packet_buf)) = none)
    (hfull : ¬ ((s.packet_buf.drop (findStart s.packet_buf)).length <
      (s.packet_buf.drop (findStart s.packet_buf)).getD 3 0 + 7)) :
    parseLoop (fuel + 1) s
      = parseLoop fuel
          { s with packet_buf :=
              (s.packet_buf.drop (findStart s.packet_buf)).drop 1 } := by
  simp only [parseLoop]
  rw [if_neg h7]
  rw [if_neg hg7, hparse]
  rw [if_pos (by omega : 4 ≤ (s.packet_buf.drop (findStart s.packet_buf)).length)]
  rw [if_neg hfull]

theorem parseLoop_step_success (fuel : Nat) (s : PrinterState) (t : Nat)
    (d : List Nat)
    (h7 : ¬ s.packet_buf.length < 7)
    (hg7 : ¬ (s.packet_buf.drop (findStart s.packet_buf)).length < 7)
    (hparse : ParsePacket (s.packet_buf.drop (findStart s.packet_buf))
      = some (t, d)) :
    parseLoop (fuel + 1) s
      = ((parseLoop fuel
            { handleResponse
                { s with packet_buf := s.packet_buf.drop (findStart s.packet_buf) }
                t d with
              packet_buf :=
                (handleResponse
                  { s with packet_buf := s.packet_buf.drop (findStart s.packet_buf) }
                  t d).packet_buf.drop (d.length + 7) }).1,
          (t, d) ::
            (parseLoop fuel
              { handleResponse
                  { s with packet_buf := s.packet_buf.drop (findStart s.packet_buf) }
                  t d with
                packet_buf :=
                  (handleResponse
                    { s with packet_buf := s.packet_buf.drop (findStart s.packet_buf) }
                    t d).packet_buf.drop (d.length + 7) }).2) := by
  simp only [parseLoop]
  rw [if_neg h7]
  rw [if_neg hg7, hparse]

theorem handleResponse_packet_buf (s : PrinterState) (t : Nat)
    (d : List Nat) : (handleResponse s t d).packet_buf = s.packet_buf := by
  simp only [handleResponse]
  split_ifs <;> rfl

/-- Fuel-subtraction forms of the unfolding lemmas, avoiding the need to
present the fuel as a syntactic successor. -/
theorem parseLoop_incomplete (fuel : Nat) (s : PrinterState)
    (hf : fuel ≠ 0)
    (h7 : ¬ s.packet_buf.length < 7)
    (hg7 : ¬ (s.packet_buf.drop (findStart s.packet_buf)).length < 7)
    (hparse : ParsePacket (s.packet_buf.drop (findStart s.packet_buf)) = none)
    (hwait : (s.packet_buf.drop (findStart s.packet_buf)).length <
      (s.packet_buf.drop (findStart s.packet_buf)).getD 3 0 + 7) :
    parseLoop fuel s
      = ({ s with packet_buf := s.packet_buf.drop (findStart s.packet_buf) },
          []) := by
  obtain ⟨f, rfl⟩ : ∃ f, fuel = f + 1 := ⟨fuel - 1, by omega⟩
  exact parseLoop_step_incomplete f s h7 hg7 hparse hwait

theorem parseLoop_drop1 (fuel : Nat) (s : PrinterState)
    (hf : fuel ≠ 0)
    (h7 : ¬ s.packet_buf.length < 7)
    (hg7 : ¬ (s.packet_buf.drop (findStart s.packet_buf)).length < 7)
    (hparse : ParsePacket (s.packet_buf.drop (findStart s.packet_buf)) = none)
    (hfull : ¬ ((s.packet_buf.drop (findStart s.packet_buf)).length <
      (s.packet_buf.drop (findStart s.packet_buf)).getD 3 0 + 7)) :
    parseLoop fuel s
      = parseLoop (fuel - 1)
          { s with packet_buf :=
              (s.packet_buf.drop (findStart s.packet_buf)).drop 1 } := by
  obtain ⟨f, rfl⟩ : ∃ f, fuel = f + 1 := ⟨fuel - 1, by omega⟩
  rw [Nat.add_sub_cancel]
  exact parseLoop_step_drop1 f s h7 hg7 hparse hfull

theorem parseLoop_success (fuel : Nat) (s : PrinterState) (t : Nat)
    (d : List Nat)
    (hf : fuel ≠ 0)
    (h7 : ¬ s.packet_buf.length < 7)
    (hg7 : ¬ (s.packet_buf.drop (findStart s.packet_buf)).length < 7)
    (hparse : ParsePacket (s.packet_buf.drop (findStart s.packet_buf))
      = some (t, d)) :
    parseLoop fuel s
      = ((parseLoop (fuel - 1)
            { handleResponse
                { s with packet_buf := s.packet_buf.drop (findStart s.packet_buf) }
                t d with
              packet_buf :=
                (s.packet_buf.drop (findStart s.packet_buf)).drop
                  (d.length + 7) }).1,
          (t, d) ::
            (parseLoop (fuel - 1)
              { handleResponse
                  { s with packet_buf := s.packet_buf.drop (findStart s.packet_buf) }
                  t d with
                packet_buf :=
                  (s.packet_buf.drop (findStart s.packet_buf)).drop
                    (d.length + 7) }).2) := by
  obtain ⟨f, rfl⟩ : ∃ f, fuel = f + 1 := ⟨fuel - 1, by omega⟩
  rw [Nat.add_sub_cancel]
  have h := parseLoop_step_success f s t d h7 hg7 hparse
  rwa [handleResponse_packet_buf] at h

/-! ## Start-marker scan lemmas -/

/-- Whether a byte list contains an adjacent `0x55 0x55` pair. -/
def hasAdjMarker : List Nat → Bool
  | a :: b :: r => (a == 85 && b == 85) || hasAdjMarker (b :: r)
  | _ => false

theorem findStart_marker (r : List Nat) : findStart (85 :: 85 :: r) = 0 := by
  simp [findStart]

theorem findStart_append (l r : List Nat)
    (hl : hasAdjMarker (l ++ [85]) = false) :
    findStart (l ++ 85 :: 85 :: r) = l.length := by
  induction l with
  | nil => simp [findStart]
  | cons a l' ih =>
    cases l' with
    | nil =>
      have ha : ¬ (a = 85) := by
        intro h
        rw [h] at hl
        simp [hasAdjMarker] at hl
      show findStart (a :: 85 :: 85 :: r) = 1
      rw [findStart, if_neg (by exact fun h => ha h.1), findStart_marker]
    | cons b l'' =>
      have hl2 : hasAdjMarker ((b :: l'') ++ [85]) = false := by
        simp only [List.cons_append, hasAdjMarker, Bool.or_eq_false_iff] at hl
        exact hl.2
      have hab : ¬ (a = 85 ∧ b = 85) := by
        intro ⟨h1, h2⟩
        rw [h1, h2] at hl
        simp [hasAdjMarker] at hl
      show findStart (a :: b :: (l'' ++ 85 :: 85 :: r)) = l''.length + 1 + 1
      rw [findStart, if_neg hab]
      have := ih hl2
      simp only [List.cons_append] at this
      rw [this]
      simp

/-! ## Claim theorems -/

/-- Claim C1: for every type byte and every payload of length 0 to 248,
`BuildPacket` into a sufficiently large buffer emits the frame
`[0x55][0x55][type][len][payload][checksum][0xAA][0xAA]` of total length
`payload length + 7`, with checksum the XOR of type, length byte and all
payload bytes, and `ParsePacket` on those bytes succeeds and returns
exactly the original type and payload. -/
theorem c1_build_parse_roundtrip (t : Nat) (p : List Nat) (bufSize : Nat)
    ( _ht : t < 256) ( _hbytes : ∀ b ∈ p, b < 256) (hp : p.length ≤ 248)
    (hbuf : p.length + 7 ≤ bufSize) :
    BuildPacket bufSize t p = some (buildPacketBytes t p) ∧
    buildPacketBytes t p
      = [85, 85, t, p.length] ++ p ++ [xorChecksum t p.length p, 170, 170] ∧
    (buildPacketBytes t p).length = p.length + 7 ∧
    ParsePacket (buildPacketBytes t p) = some (t, p) := by
  have hmod : p.length % 256 = p.length := Nat.mod_eq_of_lt (by omega)
  refine ⟨?_, ?_, ?_, parsePacket_buildPacketBytes t p hp⟩
  · rw [BuildPacket, if_neg (by omega)]
  · simp [buildPacketBytes, hmod]
  · simp [buildPacketBytes, hmod]
    try omega

theorem c1_build_parse_roundtrip_witness :
    ParsePacket (buildPacketBytes 1 [2, 3]) = some (1, [2, 3]) :=
  (c1_build_parse_roundtrip 1 [2, 3] 256 (by decide)
    (by decide) (by decide) (by decide)).2.2.2

/-- Claim C5: a heartbeat response with a 13-byte payload sets
`closing_state`, `power_level`, `paper_state`, `rfid_read_state` from
payload offsets 9, 10, 11, 12; one with a 9-byte payload sets only
`closing_state` from offset 8, leaving the other three fields unchanged. -/
theorem c5_heartbeat_status_decode (s : PrinterState) (d : List Nat) :
    (d.length = 13 → (handleResponse s 221 d).status =
      { closing_state := d.getD 9 0, power_level := d.getD 10 0,
        paper_state := d.getD 11 0, rfid_read_state := d.getD 12 0 }) ∧
    (d.length = 9 → (handleResponse s 221 d).status =
      { s.status with closing_state := d.getD 8 0 }) := by
  constructor <;> intro hlen <;>
    · simp [handleResponse, hlen]
      try split <;> rfl

theorem c5_heartbeat_status_decode_witness :
    ((handleResponse initialState 221
        [0, 1, 2, 3, 4, 5, 6, 7, 8, 9, 10, 11, 12]).status =
      { closing_state := 9, power_level := 10,
        paper_state := 11, rfid_read_state := 12 }) ∧
    ((handleResponse initialState 221 [0, 1, 2, 3, 4, 5, 6, 7, 8]).status =
      { initialState.status with closing_state := 8 }) := by
  constructor
  · have h := (c5_heartbeat_status_decode initialState
      [0, 1, 2, 3, 4, 5, 6, 7, 8, 9, 10, 11, 12]).1 (by simp)
    simpa using h
  · have h := (c5_heartbeat_status_decode initialState
      [0, 1, 2, 3, 4, 5, 6, 7, 8]).2 (by simp)
    simpa using h

/-- Claim C4: across events (handled frames and `Reset` calls), the ready
flag goes from false to true exactly on a heartbeat response (type
`0xDD`) with payload length at least 9 handled while the flag is false;
the ready callback fires exactly at those transitions; and only `Reset`
clears the flag. -/
theorem c4_ready_transitions (s : PrinterState) (e : Event) :
    (((stepEvent s e).ready = true ∧ s.ready = false) ↔
      (∃ t d, e = .frame t d ∧ t = 221 ∧ 9 ≤ d.length ∧ s.ready = false)) ∧
    ((stepEvent s e).ready_fires =
      if s.ready = false ∧ (stepEvent s e).ready = true
      then s.ready_fires + 1 else s.ready_fires) ∧
    (s.ready = true → (stepEvent s e).ready = false → e = .reset) := by
  cases e with
  | reset =>
    refine ⟨?_, ?_, fun _ _ => rfl⟩
    · simp [stepEvent, resetPrinter]
    · simp [stepEvent, resetPrinter]
  | frame t d =>
    by_cases h219 : t = 219
    · cases hr : s.ready <;>
        simp [stepEvent, handleResponse, h219, hr]
    · by_cases hhb : t = 221 ∧ 9 ≤ d.length
      · obtain ⟨ht, hd⟩ := hhb
        cases hr : s.ready
        · simp [stepEvent, handleResponse, h219, ht, hd, hr]
          exact ⟨221, d, ⟨rfl, rfl⟩, rfl, hd⟩
        · simp [stepEvent, handleResponse, h219, ht, hd, hr]
      · cases hr : s.ready
        · simp [stepEvent, handleResponse, h219, hhb, hr]
          intro ht
          rcases Nat.lt_or_ge d.length 9 with hlt | hge
          · exact hlt
          · exact absurd ⟨ht, hge⟩ hhb
        · simp [stepEvent, handleResponse, h219, hhb, hr]

theorem c4_ready_transitions_witness :
    (stepEvent initialState (.frame 221 [0, 1, 2, 3, 4, 5, 6, 7, 8])).ready
        = true ∧
      initialState.ready = false :=
  ((c4_ready_transitions initialState
      (.frame 221 [0, 1, 2, 3, 4, 5, 6, 7, 8])).1).2
    ⟨221, [0, 1, 2, 3, 4, 5, 6, 7, 8], rfl, rfl, by simp, rfl⟩

/-- Claim C10: when the ready flag is false, `Print` returns
`ESP_ERR_INVALID_STATE` immediately, with no command issued (the send
callback is never invoked) and the printer state unchanged. -/
theorem c10_print_not_ready (s : PrinterState) (h : Nat)
    (rowBits : Nat → List Nat) (oracle : Nat → Nat)
    (hready : s.ready = false) :
    PrintRun s h rowBits oracle = (espErrInvalidState, [], s) := by
  rw [PrintRun, if_pos hready]

theorem c10_print_not_ready_witness :
    PrintRun initialState 100 (fun _ => List.replicate 48 0) (fun _ => 0)
      = (espErrInvalidState, [], initialState) :=
  c10_print_not_ready initialState 100 (fun _ => List.replicate 48 0)
    (fun _ => 0) rfl

/-- Claim C9 counterexample: `BuildPacket` into a 263-byte buffer accepts
a 256-byte payload and then emits length byte `0`, misstating the payload
length; and the 256-byte buffer used by `SendPacket` accepts a 249-byte
payload, whose frame totals 256 bytes — beyond the claimed 248-byte
payload / 255-byte frame bounds. -/
theorem c9_counterexample :
    BuildPacket 263 0 (List.replicate 256 0)
      = some (buildPacketBytes 0 (List.replicate 256 0)) ∧
    (buildPacketBytes 0 (List.replicate 256 0)).getD 3 0 = 0 ∧
    (List.replicate 256 (0 : Nat)).length = 256 ∧
    BuildPacket 256 0 (List.replicate 249 0) ≠ none ∧
    (buildPacketBytes 0 (List.replicate 249 0)).length = 256 ∧
    ¬ (249 ≤ 248) := by
  refine ⟨?_, ?_, by simp, ?_, ?_, by omega⟩
  · rw [BuildPacket, if_neg (by simp)]
  · simp [buildPacketBytes]
  · rw [BuildPacket, if_neg (by simp)]
    simp
  · simp [buildPacketBytes]

/-- Claim C9 (amended): `BuildPacket` succeeds exactly when the output
buffer holds `payload length + 7` bytes — so the 256-byte buffer used by
`SendPacket` admits payloads up to 249 bytes (total frame 256) — and
whenever the payload length is at most 255 the emitted length byte
equals the payload length exactly. -/
theorem c9_amended_length_byte (bufSize t : Nat) (p : List Nat) :
    (BuildPacket bufSize t p = some (buildPacketBytes t p) ↔
      p.length + 7 ≤ bufSize) ∧
    (BuildPacket 256 t p ≠ none ↔ p.length ≤ 249) ∧
    (p.length ≤ 255 → (buildPacketBytes t p).getD 3 0 = p.length) ∧
    (buildPacketBytes t p).length = p.length + 7 := by
  refine ⟨?_, ?_, ?_, ?_⟩
  · constructor
    · intro h
      by_contra hlt
      rw [BuildPacket, if_pos (by omega)] at h
      exact absurd h (by simp)
    · intro h
      rw [BuildPacket, if_neg (by omega)]
  · constructor
    · intro h
      by_contra hlt
      rw [BuildPacket, if_pos (by omega)] at h
      exact absurd rfl h
    · intro h
      rw [BuildPacket, if_neg (by omega)]
      simp
  · intro h
    have hmod : p.length % 256 = p.length := Nat.mod_eq_of_lt (by omega)
    simp [buildPacketBytes, hmod]
  · simp [buildPacketBytes]
    try omega

theorem c9_amended_length_byte_witness :
    BuildPacket 256 7 (List.replicate 249 3) ≠ none :=
  ((c9_amended_length_byte 256 7 (List.replicate 249 3)).2.1).2 (by simp)

/-- Claim C6: with the ready flag set, `Print` issues exactly the
sequence: set density, set label type, start print, start page, set page
dimensions (rows capped to `min image.h 240`, columns fixed to 384), one
bitmap-row command per row index below the capped row count, end page,
end print; and the first failing step makes `Print` return that step's
error immediately with no further command issued. -/
theorem c6_print_sequence (s : PrinterState) (h : Nat)
    (rowBits : Nat → List Nat) (oracle : Nat → Nat)
    (hready : s.ready = true) :
    printCmdSeq h rowBits =
      [(0x21, [3]), (0x23, [1]), (0x01, [0, 1, 0, 0, 0, 0, 0]), (0x03, [1]),
       (0x13, [min h 240 / 256 % 256, min h 240 % 256, 1, 128, 0, 1])] ++
      (List.range (min h 240)).map
        (fun y => (0x85, [y / 256 % 256, y % 256, 0, 0, 0, 1] ++ rowBits y)) ++
      [(0xE3, [1]), (0xF3, [1])] ∧
    ((∀ i, oracle i = espOk) →
      PrintRun s h rowBits oracle = (espOk, printCmdSeq h rowBits, s)) ∧
    (∀ k, k < (printCmdSeq h rowBits).length → oracle k ≠ espOk →
      (∀ i, i < k → oracle i = espOk) →
      PrintRun s h rowBits oracle
        = (oracle k, (printCmdSeq h rowBits).take (k + 1), s)) := by
  refine ⟨?_, ?_, ?_⟩
  · rfl
  · intro hall
    rw [PrintRun, if_neg (by simp [hready])]
    rw [runCmds_all_ok oracle _ 0 (fun j _ => hall (0 + j))]
  · intro k hk hfail hok
    rw [PrintRun, if_neg (by simp [hready])]
    rw [runCmds_first_fail oracle _ 0 k (by simpa using hfail)
      (fun j hj => by simpa using hok j hj) hk]
    simp

/-! ## XOR-fold lemmas for the bit-flip claim -/

theorem natXor_assoc (a b c : Nat) :
    Nat.xor (Nat.xor a b) c = Nat.xor a (Nat.xor b c) := Nat.xor_assoc a b c

theorem natXor_comm (a b : Nat) : Nat.xor a b = Nat.xor b a := Nat.xor_comm a b

theorem natXor_self (a : Nat) : Nat.xor a a = 0 := Nat.xor_self a

theorem natXor_zero (a : Nat) : Nat.xor a 0 = a := Nat.xor_zero a

theorem natZero_xor (a : Nat) : Nat.xor 0 a = a := Nat.zero_xor a

theorem foldl_xor_init (l : List Nat) (a : Nat) :
    l.foldl Nat.xor a = Nat.xor a (l.foldl Nat.xor 0) := by
  induction l generalizing a with
  | nil => rw [List.foldl_nil, List.foldl_nil, natXor_zero]
  | cons x xs ih =>
    rw [List.foldl_cons, List.foldl_cons, ih, ih (Nat.xor 0 x), natZero_xor,
      natXor_assoc]

theorem xorChecksum_flip (t n : Nat) (p : List Nat) (i m : Nat)
    (hi : i < p.length) :
    xorChecksum t n (p.take i ++ Nat.xor (p.getD i 0) m :: p.drop (i + 1))
      = Nat.xor (xorChecksum t n p) m := by
  have hsplit : p = p.take i ++ p.getD i 0 :: p.drop (i + 1) := by
    rw [List.getD_eq_getElem _ _ hi]
    conv_lhs => rw [← List.take_append_drop i p]
    rw [List.drop_eq_getElem_cons hi]
  rw [xorChecksum, List.foldl_append, List.foldl_cons]
  conv_rhs => rw [xorChecksum]
  conv_rhs => rw [hsplit]
  rw [List.foldl_append, List.foldl_cons]
  rw [foldl_xor_init (p.drop (i + 1)),
    foldl_xor_init (p.drop (i + 1)) (Nat.xor _ (p.getD i 0))]
  generalize List.foldl Nat.xor (Nat.xor t n) (List.take i p) = A
  generalize List.foldl Nat.xor 0 (List.drop (i + 1) p) = B
  generalize p.getD i 0 = x
  rw [← natXor_assoc A x m, natXor_assoc (Nat.xor A x) m B, natXor_comm m B,
    ← natXor_assoc (Nat.xor A x) B m]

theorem xor_ne_self (x m : Nat) (hm : m ≠ 0) : Nat.xor x m ≠ x := by
  intro h
  apply hm
  have h2 := congrArg (Nat.xor x) h
  rwa [← natXor_assoc, natXor_self, natZero_xor] at h2

/-- Claim C7 counterexample: flipping bit 1 of the length byte of the
built frame for type `0` and payload `[0]` (length byte `1` becomes `3`)
makes `ParsePacket` fail as `incomplete` — the declared length now
exceeds the available bytes — not as `checksumMismatch`. -/
theorem c7_counterexample :
    buildPacketBytes 0 [0] = [85, 85, 0, 1, 0, 1, 170, 170] ∧
    Nat.xor 1 2 = 3 ∧
    parsePacketE [85, 85, 0, 3, 0, 1, 170, 170] = .error .incomplete ∧
    ParseError.incomplete ≠ ParseError.checksumMismatch :=
  ⟨rfl, rfl, rfl, by decide⟩

/-- Claim C7 (amended): for every type byte and payload of length 0 to
248, flipping any single bit of any payload byte of the built frame
makes `ParsePacket` fail with the `checksumMismatch` kind, distinct from
`incomplete`, `badStart` and `badEnd`; a length-byte bit flip, in
contrast, need not produce `checksumMismatch` (see the counterexample,
where it produces `incomplete`). -/
theorem c7_amended_payload_bitflip (t : Nat) (p : List Nat) (i j : Nat)
    ( _ht : t < 256) ( _hbytes : ∀ b ∈ p, b < 256) ( _hp : p.length ≤ 248)
    (hi : i < p.length) ( _hj : j < 8) :
    parsePacketE (85 :: 85 :: t :: p.length ::
        ((p.take i ++ Nat.xor (p.getD i 0) (2 ^ j) :: p.drop (i + 1)) ++
          ([xorChecksum t p.length p, 170, 170] ++ [])))
      = .error .checksumMismatch := by
  have hlen' : (p.take i ++ Nat.xor (p.getD i 0) (2 ^ j) :: p.drop (i + 1)).length
      = p.length := by
    simp [List.length_append, List.length_take, List.length_drop]
    omega
  have h := parsePacketE_frame t
    (p.take i ++ Nat.xor (p.getD i 0) (2 ^ j) :: p.drop (i + 1))
    (xorChecksum t p.length p) []
  rw [hlen'] at h
  rw [h, xorChecksum_flip t p.length p i (2 ^ j) hi]
  rw [if_pos (xor_ne_self _ _ (by positivity))]

theorem c7_amended_payload_bitflip_witness :
    parsePacketE (85 :: 85 :: 1 :: ([2, 3] : List Nat).length ::
        ((([2, 3] : List Nat).take 0 ++
            Nat.xor (([2, 3] : List Nat).getD 0 0) (2 ^ 0) ::
              ([2, 3] : List Nat).drop 1) ++
          ([xorChecksum 1 ([2, 3] : List Nat).length [2, 3], 170, 170] ++ [])))
      = .error .checksumMismatch :=
  c7_amended_payload_bitflip 1 [2, 3] 0 0 (by decide) (by decide)
    (by decide) (by decide) (by decide)

theorem c6_print_sequence_witness :
    PrintRun { initialState with ready := true } 1
        (fun _ => List.replicate 48 0) (fun _ => 0)
      = (espOk, printCmdSeq 1 (fun _ => List.replicate 48 0),
          { initialState with ready := true }) :=
  (c6_print_sequence { initialState with ready := true } 1
    (fun _ => List.replicate 48 0) (fun _ => 0) rfl).2.1 (fun _ => rfl)

/-- `ProcessReceivedData` without overflow: the delivered bytes are
appended to the accumulator named by `hbuf` and the parse loop runs. -/
theorem processReceivedData_eq (s : PrinterState) (data buf : List Nat)
    (hbuf : s.packet_buf = buf) (h : buf.length + data.length ≤ 512) :
    ProcessReceivedData s data
      = parseLoop (buf ++ data).length
          { s with packet_buf := buf ++ data } := by
  simp only [ProcessReceivedData, hbuf]
  rw [if_neg (by omega)]

/-- Claim C8: for every valid frame and every split point strictly inside
it, a `ProcessReceivedData` call on the first part from an empty
accumulator handles no frame (the accumulator keeps the partial bytes),
and a subsequent call on the remaining part handles exactly the one
original frame and leaves the accumulator empty. -/
theorem c8_split_frame (s : PrinterState) (t : Nat) (p : List Nat) (k : Nat)
    (hs : s.packet_buf = []) ( _ht : t < 256) ( _hb : ∀ b ∈ p, b < 256)
    (hp : p.length ≤ 248) (hk0 : 0 < k)
    (hkF : k < (buildPacketBytes t p).length) :
    (ProcessReceivedData s ((buildPacketBytes t p).take k)).2 = [] ∧
    (ProcessReceivedData s ((buildPacketBytes t p).take k)).1.packet_buf
      = (buildPacketBytes t p).take k ∧
    (ProcessReceivedData
        (ProcessReceivedData s ((buildPacketBytes t p).take k)).1
        ((buildPacketBytes t p).drop k)).2 = [(t, p)] ∧
    (ProcessReceivedData
        (ProcessReceivedData s ((buildPacketBytes t p).take k)).1
        ((buildPacketBytes t p).drop k)).1.packet_buf = [] := by
  have hmod : p.length % 256 = p.length := Nat.mod_eq_of_lt (by omega)
  have hcons : buildPacketBytes t p
      = 85 :: 85 :: t :: p.length ::
          (p ++ [xorChecksum t p.length p, 170, 170]) := by
    simp [buildPacketBytes, hmod]
  have hFlen : (buildPacketBytes t p).length = p.length + 7 := by
    rw [hcons]
    simp
  have hlen_take : ((buildPacketBytes t p).take k).length = k := by
    rw [List.length_take]
    omega
  have hcall1 : ProcessReceivedData s ((buildPacketBytes t p).take k)
      = ({ s with packet_buf := (buildPacketBytes t p).take k }, []) := by
    rw [processReceivedData_eq s _ [] hs (by rw [hlen_take]; simp; omega)]
    rw [List.nil_append]
    by_cases h7 : k < 7
    · exact parseLoop_stop _ _ (by rw [hlen_take]; exact h7)
    · obtain ⟨m, rfl⟩ : ∃ m, k = m + 7 := ⟨k - 7, by omega⟩
      have htake : (buildPacketBytes t p).take (m + 7)
          = 85 :: 85 :: t :: p.length ::
              ((p ++ [xorChecksum t p.length p, 170, 170]).take (m + 3)) := by
        rw [hcons]
        rfl
      have hfs : findStart ((buildPacketBytes t p).take (m + 7)) = 0 := by
        rw [htake]
        exact findStart_marker _
      have hg0 : ((buildPacketBytes t p).take (m + 7)).getD 0 0 = 85 := by
        rw [htake]; rfl
      have hg1 : ((buildPacketBytes t p).take (m + 7)).getD 1 0 = 85 := by
        rw [htake]; rfl
      have hg3 : ((buildPacketBytes t p).take (m + 7)).getD 3 0 = p.length := by
        rw [htake]; rfl
      have hparse1 : parsePacketE ((buildPacketBytes t p).take (m + 7))
          = .error .incomplete := by
        rw [parsePacketE]
        simp only [hlen_take, hg0, hg1, hg3]
        rw [if_neg (by omega : ¬ (m + 7 < 7))]
        rw [if_neg (by simp : ¬ ((85 : Nat) ≠ 85 ∨ (85 : Nat) ≠ 85))]
        rw [if_pos (by omega : m + 7 < p.length + 7)]
      rw [parseLoop_incomplete _ _ (by omega)
        (by show ¬ ((buildPacketBytes t p).take (m + 7)).length < 7
            rw [hlen_take]; omega)
        (by show ¬ (((buildPacketBytes t p).take (m + 7)).drop
              (findStart ((buildPacketBytes t p).take (m + 7)))).length < 7
            rw [hfs, List.drop_zero, hlen_take]; omega)
        (by show ParsePacket (((buildPacketBytes t p).take (m + 7)).drop
              (findStart ((buildPacketBytes t p).take (m + 7)))) = none
            rw [hfs, List.drop_zero, ParsePacket, hparse1]; rfl)
        (by show (((buildPacketBytes t p).take (m + 7)).drop
              (findStart ((buildPacketBytes t p).take (m + 7)))).length <
              (((buildPacketBytes t p).take (m + 7)).drop
                (findStart ((buildPacketBytes t p).take (m + 7)))).getD 3 0 + 7
            rw [hfs, List.drop_zero, hlen_take, hg3]; omega)]
      rw [hfs, List.drop_zero]
  have hfsF : findStart (buildPacketBytes t p) = 0 := by
    rw [hcons]
    exact findStart_marker _
  have hdropF : (buildPacketBytes t p).drop (p.length + 7) = [] := by
    rw [← hFlen]
    exact List.drop_length _
  have hcall2 : ProcessReceivedData
        ({ s with packet_buf := (buildPacketBytes t p).take k })
        ((buildPacketBytes t p).drop k)
      = ({ handleResponse { s with packet_buf := buildPacketBytes t p } t p
            with packet_buf := [] }, [(t, p)]) := by
    rw [processReceivedData_eq _ _ ((buildPacketBytes t p).take k) rfl
      (by rw [hlen_take, List.length_drop, hFlen]; omega)]
    rw [List.take_append_drop]
    rw [parseLoop_success _ _ t p
      (by rw [hFlen]; omega)
      (by show ¬ (buildPacketBytes t p).length < 7
          rw [hFlen]; omega)
      (by show ¬ ((buildPacketBytes t p).drop
            (findStart (buildPacketBytes t p))).length < 7
          rw [hfsF, List.drop_zero, hFlen]; omega)
      (by show ParsePacket ((buildPacketBytes t p).drop
            (findStart (buildPacketBytes t p))) = some (t, p)
          rw [hfsF, List.drop_zero]
          exact parsePacket_buildPacketBytes t p hp)]
    simp only [hfsF, List.drop_zero, hdropF]
    rw [parseLoop_stop _ _ (by simp)]
  exact ⟨by rw [hcall1], by rw [hcall1], by rw [hcall1, hcall2],
    by rw [hcall1, hcall2]⟩

theorem c8_split_frame_witness :
    (ProcessReceivedData initialState ((buildPacketBytes 1 [2, 3]).take 4)).2
        = [] ∧
    (ProcessReceivedData initialState
        ((buildPacketBytes 1 [2, 3]).take 4)).1.packet_buf
      = (buildPacketBytes 1 [2, 3]).take 4 ∧
    (ProcessReceivedData
        (ProcessReceivedData initialState
          ((buildPacketBytes 1 [2, 3]).take 4)).1
        ((buildPacketBytes 1 [2, 3]).drop 4)).2 = [(1, [2, 3])] ∧
    (ProcessReceivedData
        (ProcessReceivedData initialState
          ((buildPacketBytes 1 [2, 3]).take 4)).1
        ((buildPacketBytes 1 [2, 3]).drop 4)).1.packet_buf = [] :=
  c8_split_frame initialState 1 [2, 3] 4 rfl (by decide) (by decide)
    (by decide) (by decide) (by decide)

/-- Claim C3 counterexample: the corrupt frame
`55 55 00 04 55 55 00 F0 F5 AA AA` (a built frame for type 0 and payload
`[0x55,0x55,0x00,0xF0]` with its checksum byte corrupted from `F4` to
`F5`) followed by the valid frame `55 55 00 00 00 AA AA` is NOT resolved
by a single `ProcessReceivedData` call: after the one-byte skip the scan
locks onto the `55 55` pair embedded in the corrupt payload, reads its
declared length `0xF0`, and stops waiting for more data — zero frames
are handled. -/
theorem c3_counterexample :
    parsePacketE [85, 85, 0, 4, 85, 85, 0, 240, 245, 170, 170]
      = .error .checksumMismatch ∧
    ParsePacket (buildPacketBytes 0 []) = some (0, []) ∧
    (ProcessReceivedData initialState
        ([85, 85, 0, 4, 85, 85, 0, 240, 245, 170, 170]
          ++ buildPacketBytes 0 [])).2 = [] := by
  refine ⟨rfl, rfl, by decide⟩

/-- Claim C3 (amended): for a frame corrupted to a bad checksum byte
followed by a valid frame, a single `ProcessReceivedData` call discards
exactly one leading byte after the full corrupt packet fails validation,
resynchronizes, and handles the valid frame, leaving the accumulator
empty — provided the corrupt frame contains no embedded `0x55 0x55` pair
after its first byte (otherwise the resync can lock onto a spurious
embedded frame start and stall waiting for more data, as in the
counterexample). -/
theorem c3_amended_bad_checksum_resync (s : PrinterState) (tC tV : Nat)
    (pC pV : List Nat) (bad : Nat) (hs : s.packet_buf = [])
    (hpC : pC.length ≤ 248) (hpV : pV.length ≤ 248)
    (hbad : bad ≠ xorChecksum tC pC.length pC)
    (hmark : hasAdjMarker
      ((85 :: tC :: pC.length :: (pC ++ [bad, 170, 170])) ++ [85])
      = false) :
    (ProcessReceivedData s
        ((85 :: 85 :: tC :: pC.length :: (pC ++ [bad, 170, 170]))
          ++ buildPacketBytes tV pV)).2 = [(tV, pV)] ∧
    (ProcessReceivedData s
        ((85 :: 85 :: tC :: pC.length :: (pC ++ [bad, 170, 170]))
          ++ buildPacketBytes tV pV)).1.packet_buf = [] := by
  have hmodV : pV.length % 256 = pV.length := Nat.mod_eq_of_lt (by omega)
  have hconsV : buildPacketBytes tV pV
      = 85 :: 85 :: tV :: pV.length ::
          (pV ++ [xorChecksum tV pV.length pV, 170, 170]) := by
    simp [buildPacketBytes, hmodV]
  have hVlen : (buildPacketBytes tV pV).length = pV.length + 7 := by
    rw [hconsV]
    simp
  have hdlen : ((85 :: 85 :: tC :: pC.length :: (pC ++ [bad, 170, 170]))
      ++ buildPacketBytes tV pV).length = pC.length + pV.length + 14 := by
    simp [hVlen]
    omega
  have hrun : ProcessReceivedData s
      ((85 :: 85 :: tC :: pC.length :: (pC ++ [bad, 170, 170]))
        ++ buildPacketBytes tV pV)
      = ({ handleResponse { s with packet_buf := buildPacketBytes tV pV }
            tV pV with packet_buf := [] }, [(tV, pV)]) := by
    rw [processReceivedData_eq s _ [] hs (by rw [hdlen]; simp; omega)]
    rw [List.nil_append]
    -- Iteration 1: the full corrupt packet fails its checksum; one byte
    -- is discarded.
    have hflat : (85 :: 85 :: tC :: pC.length :: (pC ++ [bad, 170, 170]))
        ++ buildPacketBytes tV pV
        = 85 :: 85 :: tC :: pC.length ::
            (pC ++ ([bad, 170, 170] ++ buildPacketBytes tV pV)) := by
      simp
    have hfs0 : findStart ((85 :: 85 :: tC :: pC.length ::
        (pC ++ [bad, 170, 170])) ++ buildPacketBytes tV pV) = 0 := by
      rw [hflat]
      exact findStart_marker _
    have hparse0 : ParsePacket ((85 :: 85 :: tC :: pC.length ::
        (pC ++ [bad, 170, 170])) ++ buildPacketBytes tV pV) = none := by
      rw [ParsePacket, hflat, parsePacketE_frame,
        if_pos (fun h => hbad h.symm)]
      rfl
    have hg3 : ((85 :: 85 :: tC :: pC.length :: (pC ++ [bad, 170, 170]))
        ++ buildPacketBytes tV pV).getD 3 0 = pC.length := rfl
    rw [parseLoop_drop1 _ _ (by rw [hdlen]; omega)
      (by rw [hdlen]; omega)
      (by rw [hfs0, List.drop_zero, hdlen]; omega)
      (by rw [hfs0, List.drop_zero]; exact hparse0)
      (by rw [hfs0, List.drop_zero, hdlen, hg3]; omega)]
    rw [hfs0, List.drop_zero]
    -- Iteration 2: the scan skips the corrupt remainder up to the valid
    -- frame's start markers, and the valid frame parses.
    have hdrop1 : ((85 :: 85 :: tC :: pC.length :: (pC ++ [bad, 170, 170]))
        ++ buildPacketBytes tV pV).drop 1
        = (85 :: tC :: pC.length :: (pC ++ [bad, 170, 170]))
          ++ buildPacketBytes tV pV := rfl
    rw [hdrop1]
    have hLlen : (85 :: tC :: pC.length :: (pC ++ [bad, 170, 170])).length
        = pC.length + 6 := by
      simp
    have hfs1 : findStart ((85 :: tC :: pC.length :: (pC ++ [bad, 170, 170]))
        ++ buildPacketBytes tV pV)
        = pC.length + 6 := by
      rw [hconsV]
      rw [findStart_append _ _ hmark]
      exact hLlen
    have hdropL : ((85 :: tC :: pC.length :: (pC ++ [bad, 170, 170]))
        ++ buildPacketBytes tV pV).drop (pC.length + 6)
        = buildPacketBytes tV pV := by
      have h := drop_append_length
        (85 :: tC :: pC.length :: (pC ++ [bad, 170, 170]))
        (buildPacketBytes tV pV) 0
      rw [hLlen] at h
      simp only [Nat.add_zero, List.drop_zero] at h
      exact h
    have hL1len : ((85 :: tC :: pC.length :: (pC ++ [bad, 170, 170]))
        ++ buildPacketBytes tV pV).length = pC.length + pV.length + 13 := by
      simp [hVlen]
      omega
    have hdropV : (buildPacketBytes tV pV).drop (pV.length + 7) = [] := by
      rw [← hVlen]
      exact List.drop_length _
    rw [parseLoop_success _ _ tV pV
      (by rw [hdlen]; omega)
      (by rw [hL1len]; omega)
      (by rw [hfs1, hdropL, hVlen]; omega)
      (by rw [hfs1, hdropL]; exact parsePacket_buildPacketBytes tV pV hpV)]
    simp only [hfs1, hdropL, hdropV]
    -- Iteration 3: the buffer is empty; the loop ends.
    rw [parseLoop_stop _ _ (by simp)]
  exact ⟨by rw [hrun], by rw [hrun]⟩

theorem c3_amended_bad_checksum_resync_witness :
    (ProcessReceivedData initialState
        ((85 :: 85 :: 0 :: ([0, 0, 0, 0] : List Nat).length ::
            (([0, 0, 0, 0] : List Nat) ++ [5, 170, 170]))
          ++ buildPacketBytes 7 [9])).2 = [(7, [9])] ∧
    (ProcessReceivedData initialState
        ((85 :: 85 :: 0 :: ([0, 0, 0, 0] : List Nat).length ::
            (([0, 0, 0, 0] : List Nat) ++ [5, 170, 170]))
          ++ buildPacketBytes 7 [9])).1.packet_buf = [] :=
  c3_amended_bad_checksum_resync initialState 0 7 [0, 0, 0, 0] [9] 5 rfl
    (by decide) (by decide) (by decide) (by decide)

/-- Claim C2 counterexample: a first call leaves a 261-byte incomplete
frame in the accumulator (the declared payload length 255 promises a
262-byte frame); a second call delivering 252 zero bytes overflows
(`261 + 252 = 513 > 512`), contains no resolvable frame, and handles no
frame — yet afterwards the accumulator holds the final delivered byte
`[0]`, not nothing. -/
theorem c2_counterexample :
    (ProcessReceivedData initialState
        ([85, 85, 0, 255] ++ List.replicate 257 0)).1.packet_buf.length
      = 261 ∧
    (ProcessReceivedData initialState
        ([85, 85, 0, 255] ++ List.replicate 257 0)).2 = [] ∧
    512 < 261 + (List.replicate 252 (0 : Nat)).length ∧
    (ProcessReceivedData
        (ProcessReceivedData initialState
          ([85, 85, 0, 255] ++ List.replicate 257 0)).1
        (List.replicate 252 0)).2 = [] ∧
    (ProcessReceivedData
        (ProcessReceivedData initialState
          ([85, 85, 0, 255] ++ List.replicate 257 0)).1
        (List.replicate 252 0)).1.packet_buf = [0] := by
  refine ⟨by decide, by decide, by decide, by decide, by decide⟩

/-- Claim C2 (amended): on a call that would make the accumulated length
exceed 512 bytes, the pre-existing accumulator contents are discarded
entirely before the delivered bytes are appended, so the call behaves
exactly as if the accumulator had been empty; remnants of the newly
delivered bytes (a trailing byte or an incomplete frame) may, however,
remain in the accumulator afterwards. -/
theorem c2_amended_overflow_discards (s : PrinterState) (data : List Nat)
    (hover : 512 < s.packet_buf.length + data.length) :
    ProcessReceivedData s data
      = ProcessReceivedData { s with packet_buf := [] } data := by
  simp [ProcessReceivedData, hover]

theorem c2_amended_overflow_discards_witness :
    ProcessReceivedData
        { initialState with packet_buf := List.replicate 300 0 }
        (List.replicate 300 0)
      = ProcessReceivedData
          { { initialState with packet_buf := List.replicate 300 0 } with
            packet_buf := [] }
          (List.replicate 300 0) :=
  c2_amended_overflow_discards
    { initialState with packet_buf := List.replicate 300 0 }
    (List.replicate 300 0) (by simp)

end Printmas
